import Mathlib

/-!
Verification of the multi-device training-loop core of the main_loop_tf
repository.  The definitions below are a shallow embedding of the Python
source (src/main_loop_tf/main.py and src/main_loop_tf/utils.py): tensors
are modeled as lists of rationals, numpy and TensorFlow list-level
operations are translated to Lean list functions, Python exceptions become
Except or Option results, and the mutable Experiment object becomes
explicit state passing.
-/

namespace MainLoopTF

/-- Model of numpy array_split section sizes: splitting a length-l array
into n sections gives l % n sections of size l / n + 1 followed by
sections of size l / n. -/
def arraySplitSizes (l n : Nat) : List Nat :=
  (List.range n).map (fun i => if i < l % n then l / n + 1 else l / n)

/-- Cut a list into consecutive pieces of the given sizes. -/
def splitBySizes : List α → List Nat → List (List α)
  | _, [] => []
  | xs, s :: ss => xs.take s :: splitBySizes (xs.drop s) ss

/-- Model of numpy array_split(xs, n).  numpy raises ValueError
(number sections must be larger than 0) when n = 0, modeled by none. -/
def array_split (xs : List α) (n : Nat) : Option (List (List α)) :=
  if n = 0 then none else some (splitBySizes xs (arraySplitSizes xs.length n))

/-- utils.split_in_chunks: return the per-device splits of the data and of
the labels, obtained with np.array_split.  The labels chunks are already
one-dimensional here, so the flatten() applied per chunk in the source is
the identity in this model. -/
def split_in_chunks (x_batch y_batch : List α) (gpus_used : Nat) :
    Option (List (List α) × List (List α)) := do
  let x_batch_chunks ← array_split x_batch gpus_used
  let y_batch_chunks ← array_split y_batch gpus_used
  some (x_batch_chunks, y_batch_chunks)

/-- A minibatch as produced by the dataset collaborator: the data rows and
the (already flattened) labels. -/
structure Minibatch (α : Type) where
  data : List α
  labels : List α
deriving DecidableEq

/-- The per-device chunks of a minibatch, one Minibatch record per chunk
(empty when np.array_split would raise, i.e. when n = 0). -/
def chunksOf (mini : Minibatch α) (n : Nat) : List (Minibatch α) :=
  match split_in_chunks mini.data mini.labels n with
  | some (xc, yc) => (xc.zip yc).map (fun p => Minibatch.mk p.1 p.2)
  | none => []

/-- The graph placeholders fed by Experiment.get_feed_dict: the per-device
data and labels placeholders created in get_placeholders, plus the three
control placeholders num_devs, num_batches and prev_err. -/
inductive Placeholder where
  | data (dev : Nat)
  | labels (dev : Nat)
  | num_devs
  | num_batches
  | prev_err
deriving DecidableEq

/-- A value fed to a placeholder. -/
inductive FeedVal (α : Type) where
  | arr (xs : List α)
  | cnt (n : Nat)
  | err (q : ℚ)
deriving DecidableEq

/-- Model of itertools zip_longest(as, bs, fillvalue) in the regime used by
get_feed_dict, where the placeholder list is at least as long as the chunk
list: the missing chunk positions are filled with the fill chunk.  (When
the chunk list were longer, Python would pair fill values on the
placeholder side and the subsequent dict iteration would fail; that regime
is outside every claim, which all have the active count at most the device
count.) -/
def zip_longest_fill (as : List α) (bs : List β) (fill : β) : List (α × β) :=
  as.zip (bs ++ List.replicate (as.length - bs.length) fill)

/-- Experiment.get_feed_dict: split the minibatch in n_splits chunks, then
associate each device's placeholders with its chunk; the devices beyond
the number of chunks are associated with the first chunk
(fillvalue = minibatch_chunks[0]).  Finally the control placeholders
num_devs, num_batches and prev_err are set.  Returns none when
np.array_split raises (n_splits = 0). -/
def get_feed_dict (num_devs : Nat) (mini : Minibatch α) (loss_value : ℚ)
    (n_splits : Nat) : Option (List (Placeholder × FeedVal α)) := do
  let _ ← split_in_chunks mini.data mini.labels n_splits
  let minibatch_chunks := chunksOf mini n_splits
  let c0 ← minibatch_chunks.head?
  let paired := zip_longest_fill (List.range num_devs) minibatch_chunks c0
  some (((paired.map (fun dc =>
      [(Placeholder.data dc.1, FeedVal.arr dc.2.data),
       (Placeholder.labels dc.1, FeedVal.arr dc.2.labels)])).flatten)
    ++ [(Placeholder.num_devs, FeedVal.cnt n_splits),
        (Placeholder.num_batches, FeedVal.cnt mini.data.length),
        (Placeholder.prev_err, FeedVal.err loss_value)])

/-- Experiment.batch_do's active-device-count computation:
this_n_splits = len(x_batch) // cfg.batch_size, incremented by one when
len(x_batch) % cfg.batch_size is nonzero. -/
def this_n_splits (rows batch_size : Nat) : Nat :=
  rows / batch_size + (if rows % batch_size ≠ 0 then 1 else 0)

/-- The failures Experiment.batch_do can actually hit in this model:
the generic ValueError raised by np.array_split on zero sections, and the
IndexError of grad_ops[which_op] when the batch needs more devices than
are configured. -/
inductive StepError where
  | numpy_zero_sections
  | grad_ops_index_error
deriving DecidableEq

/-- Experiment.batch_do (the part up to selecting the train op): compute
this_n_splits from the minibatch rows, build the feed dict, and select
which_op = this_n_splits - 1 among the num_devs precompiled grad_ops.
Returns the feed dict together with the selected op index. -/
def batch_do (num_devs batch_size : Nat) (mini : Minibatch α)
    (loss_value : ℚ) :
    Except StepError (List (Placeholder × FeedVal α) × Nat) :=
  match get_feed_dict num_devs mini loss_value
      (this_n_splits mini.data.length batch_size) with
  | none => Except.error StepError.numpy_zero_sections
  | some fd =>
      if this_n_splits mini.data.length batch_size - 1 < num_devs then
        Except.ok (fd, this_n_splits mini.data.length batch_size - 1)
      else Except.error StepError.grad_ops_index_error

/-- The failures utils.process_gradients can raise: the ValueError on an
empty list of (gradient, var) pairs after multiplier application, and the
ValueError on an unknown clip_gradients type. -/
inductive GradError where
  | invalid_gradient_multiplier
  | unknown_clip_type
deriving DecidableEq

/-- The clip_gradients argument of utils.process_gradients: a float
threshold, a callable transform, or any other non-None value (which the
source rejects). -/
inductive ClipGradients (γ : Type) where
  | float (threshold : ℚ)
  | callable (f : List γ → List γ)
  | other

/-- utils.process_gradients.  The three TensorFlow library helpers
(_add_scaled_noise_to_gradients, _multiply_gradients and
_clip_gradients_by_norm) are external imports, passed here as function
parameters; γ is the type of (gradient, variable) pairs and μ the type of
the gradient_multipliers dict. -/
def process_gradients
    (add_scaled_noise_to_gradients : List γ → ℚ → List γ)
    (multiply_gradients : List γ → μ → List γ)
    (clip_gradients_by_norm : List γ → ℚ → List γ)
    (gradients : List γ)
    (gradient_noise_scale : Option ℚ)
    (gradient_multipliers : Option μ)
    (clip_gradients : Option (ClipGradients γ)) :
    Except GradError (List γ) := do
  let gradients :=
    match gradient_noise_scale with
    | some s => add_scaled_noise_to_gradients gradients s
    | none => gradients
  let gradients ←
    match gradient_multipliers with
    | some m =>
        let gradients := multiply_gradients gradients m
        if gradients.isEmpty then
          Except.error GradError.invalid_gradient_multiplier
        else Except.ok gradients
    | none => Except.ok gradients
  match clip_gradients with
  | some (ClipGradients.float c) =>
      Except.ok (clip_gradients_by_norm gradients c)
  | some (ClipGradients.callable f) => Except.ok (f gradients)
  | some ClipGradients.other => Except.error GradError.unknown_clip_type
  | none => Except.ok gradients

/-- Length of the shortest list, i.e. the number of tuples produced by
Python's zip over several lists (0 for zip of no lists). -/
def minLen : List (List α) → Nat
  | [] => 0
  | l :: ls => ls.foldl (fun a b => min a b.length) l.length

/-- Python zip(*ls): transpose the lists, truncating at the shortest. -/
def zipStar (ls : List (List α)) : List (List α) :=
  (List.range (minLen ls)).map (fun i => ls.filterMap (fun l => l.get? i))

/-- tf.concat of the expanded per-tower gradients followed by
tf.reduce_mean over the tower axis: the elementwise mean of the stacked
tensors.  TensorFlow requires the stacked tensors to share one shape;
accordingly the theorems below only apply this to equal-length lists. -/
def reduce_mean_axis0 (ts : List (List ℚ)) : List ℚ :=
  match ts with
  | [] => []
  | t :: _ => (List.range t.length).map (fun i =>
      ((ts.map (fun u => u.getD i 0)).sum) / (ts.length : ℚ))

/-- utils.average_gradients.  tower_grads is the list of towers, each a
list of (gradient, variable) pairs; a gradient is an optional tensor
because TensorFlow's compute_gradients yields None for variables unused
by a loss.  tf.expand_dims(g, 0) raises when g is None (None cannot be
converted to a tensor), modeled by the whole call returning none.  The
returned variable of each pair is grad_and_vars[0][1], the first tower's
variable handle. -/
def average_gradients [Inhabited V]
    (tower_grads : List (List (Option (List ℚ) × V))) :
    Option (List (List ℚ × V)) :=
  (zipStar tower_grads).mapM (fun grad_and_vars => do
    let grads ← grad_and_vars.mapM (fun gv => gv.1)
    let grad := reduce_mean_axis0 grads
    let v := match grad_and_vars with
      | [] => default
      | gv0 :: _ => gv0.2
    some (grad, v))

/-- tf add_to_collection for each named collection in keys: the item is
appended to every collection whose key is listed.  Collection names are
the per-device summary-set names built in Experiment.__build_device_graph
(phase_set + device string); the devices being pairwise distinct, the
names are modeled by the device ordinals. -/
def add_to_collections [DecidableEq κ] (keys : List κ) (item : α)
    (cols : κ → List α) : κ → List α :=
  fun k => if k ∈ keys then cols k ++ [item] else cols k

/-- The device loop of Experiment.__build_device_graph, restricted to its
summary-collection effect: the remaining device ordinals double as the
remaining summary-set names (these_s), every summary emitted while
building the replica of the head device is added to all the remaining
collections, and then these_s loses its head (these_s = these_s[1:]). -/
def device_loop (emits : Nat → List α) :
    List Nat → (Nat → List α) → Nat → List α
  | [], cols => cols
  | d :: rest, cols =>
      device_loop emits rest
        ((emits d).foldl (fun c it => add_to_collections (d :: rest) it c)
          cols)

/-- The summary collections of Experiment.__build_device_graph at the
moment the merged summary ops are created: first the device loop adds
each replica's emissions (emits d) to the remaining collections, starting
from empty collections; then the source emits further whole-graph
aggregate summaries — the gradient histograms, the batch-size scalar, the
avg-loss scalar and, when training, the per-component losses and the
variable histograms — passing the full collection list, so each of those
lands in every bucket alike; post is that post-loop emission sequence, in
order. -/
def build_summary_collections (num_devs : Nat) (emits : Nat → List α)
    (post : List α) : Nat → List α :=
  post.foldl (fun c it => add_to_collections (List.range num_devs) it c)
    (device_loop emits (List.range num_devs) (fun _ => []))

/-- SummaryBucket[i]: the contents of the i-th named summary collection,
which the i-th merged summary op (tf.summary.merge of get_collection_ref)
covers. -/
def summaryBucket (num_devs : Nat) (emits : Nat → List α) (post : List α)
    (i : Nat) : List α :=
  build_summary_collections num_devs emits post i

/-- Specification-level recursion on the remaining device list describing
what a single collection k accumulates along the device loop: the head
device's emissions are received exactly when k is still among the
remaining collection names. -/
def bucketOf (emits : Nat → List α) : List Nat → Nat → List α
  | [], _ => []
  | d :: rest, k =>
      (if k ∈ d :: rest then emits d else []) ++ bucketOf emits rest k

/-- The error raised by Experiment.__build_graph on a second call. -/
inductive BuildError where
  | cannot_build_twice
deriving DecidableEq

/-- The part of the Experiment object state that the graph-build guard
touches: the _graph_built flag and the built graph (abstracted to an
optional payload of type G). -/
structure ExperimentState (G : Type) where
  graph_built : Bool
  graph : Option G
deriving DecidableEq

/-- Experiment.__build_graph: raise RuntimeError (you cannot build the
graph twice) if _graph_built is already set, otherwise set the flag and
build the graph (the construction itself abstracted as mk).  A raise
leaves the object unchanged, modeled by returning the input state
alongside the error. -/
def build_graph (mk : Unit → G) (st : ExperimentState G) :
    ExperimentState G × Option BuildError :=
  if st.graph_built then (st, some BuildError.cannot_build_twice)
  else ({ graph_built := true, graph := some (mk ()) }, none)

/-- The training-loop state read and written by Experiment.epoch_begin:
the global step counter, the dataset's number of batches per epoch, and
the epoch index field. -/
structure TrainLoopState where
  global_step_val : Nat
  nbatches : Nat
  epoch_id : Nat
deriving DecidableEq

/-- Experiment.epoch_begin's state update:
self.epoch_id = self.global_step_val // self.train.nbatches. -/
def epoch_begin (st : TrainLoopState) : TrainLoopState :=
  { st with epoch_id := st.global_step_val / st.nbatches }

/-! ### Theorems -/

/-- C1 (amended): the active-device-count computation in batch_do returns
exactly ceil(rows / batch_size) with no clamping: for 1 <= r <= T * b the
result k satisfies (k-1) * b < r <= k * b and 1 <= k <= T, but for r = 0
the result is 0 and for r > T * b the result exceeds T. -/
theorem this_n_splits_is_unclamped_ceil (T b r : Nat) (hb : 0 < b) :
    this_n_splits r b = (r + b - 1) / b
  ∧ (1 ≤ r → r ≤ T * b →
      (this_n_splits r b - 1) * b < r ∧ r ≤ this_n_splits r b * b
      ∧ 1 ≤ this_n_splits r b ∧ this_n_splits r b ≤ T)
  ∧ this_n_splits 0 b = 0
  ∧ (T * b < r → T < this_n_splits r b) := by
  have hqm : b * (r / b) + r % b = r := Nat.div_add_mod r b
  have hm : r % b < b := Nat.mod_lt _ hb
  have hcomm : b * (r / b) = (r / b) * b := Nat.mul_comm _ _
  have hcT : b * T = T * b := Nat.mul_comm b T
  have hsub : (r / b - 1) * b = (r / b) * b - 1 * b := Nat.sub_mul _ _ _
  have hsucc : b * (r / b + 1) = b * (r / b) + b := Nat.mul_succ b _
  have hsucc2 : (r / b + 1) * b = b * (r / b + 1) := Nat.mul_comm _ _
  by_cases h0 : r % b = 0
  · have hk : this_n_splits r b = r / b := by
      simp [this_n_splits, h0]
    refine ⟨?_, ?_, by simp [this_n_splits], ?_⟩
    · have h1 : r + b - 1 = b * (r / b) + (b - 1) := by omega
      have h2 : (b * (r / b) + (b - 1)) / b = r / b + (b - 1) / b :=
        Nat.mul_add_div hb _ _
      have h3 : (b - 1) / b = 0 := Nat.div_eq_of_lt (by omega)
      rw [hk, h1, h2, h3]
      omega
    · intro h1 h2
      have hq1 : 1 ≤ r / b := by
        rcases Nat.eq_zero_or_pos (r / b) with h | h
        · rw [h] at hqm; omega
        · exact h
      have hle : b * (r / b) ≤ b * T := by omega
      have hqT : r / b ≤ T := Nat.le_of_mul_le_mul_left hle hb
      rw [hk]
      refine ⟨by omega, by omega, by omega, by omega⟩
    · intro h
      have hlt : b * T < b * (r / b) := by omega
      have := Nat.lt_of_mul_lt_mul_left hlt
      rw [hk]
      omega
  · have hk : this_n_splits r b = r / b + 1 := by
      simp [this_n_splits, h0]
    have hk1 : (r / b + 1 - 1) * b = (r / b) * b := by
      rw [Nat.add_sub_cancel]
    refine ⟨?_, ?_, by simp [this_n_splits], ?_⟩
    · have h1 : r + b - 1 = b * (r / b + 1) + (r % b - 1) := by omega
      have h2 : (b * (r / b + 1) + (r % b - 1)) / b
          = (r / b + 1) + (r % b - 1) / b := Nat.mul_add_div hb _ _
      have h3 : (r % b - 1) / b = 0 := Nat.div_eq_of_lt (by omega)
      rw [hk, h1, h2, h3]
    · intro h1 h2
      have hlt : b * (r / b) < b * T := by omega
      have hqT : r / b < T := Nat.lt_of_mul_lt_mul_left hlt
      rw [hk]
      have e1 : (r / b + 1 - 1) * b = b * (r / b) := by omega
      have e2 : (r / b + 1) * b = b * (r / b) + b := by omega
      refine ⟨?_, ?_, ?_, ?_⟩
      · omega
      · omega
      · exact Nat.le_add_left 1 _
      · omega
    · intro h
      have hlt : b * T < b * (r / b + 1) := by omega
      have := Nat.lt_of_mul_lt_mul_left hlt
      rw [hk]
      omega

/-- C1 witness: the amended statement instantiated at T = 2, b = 4,
r = 5 (spec Scenario A: 5 rows on 2 devices of batch 4 give k = 2). -/
theorem this_n_splits_is_unclamped_ceil_witness :
    (0 : Nat) < 4
  ∧ (this_n_splits 5 4 = (5 + 4 - 1) / 4
  ∧ (1 ≤ 5 → 5 ≤ 2 * 4 →
      (this_n_splits 5 4 - 1) * 4 < 5 ∧ 5 ≤ this_n_splits 5 4 * 4
      ∧ 1 ≤ this_n_splits 5 4 ∧ this_n_splits 5 4 ≤ 2)
  ∧ this_n_splits 0 4 = 0
  ∧ (2 * 4 < 5 → 2 < this_n_splits 5 4)) :=
  ⟨by decide, this_n_splits_is_unclamped_ceil 2 4 5 (by decide)⟩

/-- C1 counterexample: with total_devices = 2 and per_device_batch = 4 the
code returns 3 for 9 rows and 0 for 0 rows; neither value is clamped to
the interval [1, 2], so the clamping clause of the claim is false. -/
theorem this_n_splits_no_clamp_cex :
    this_n_splits 9 4 = 3 ∧ this_n_splits 0 4 = 0
  ∧ ¬(1 ≤ this_n_splits 9 4 ∧ this_n_splits 9 4 ≤ 2)
  ∧ ¬(1 ≤ this_n_splits 0 4 ∧ this_n_splits 0 4 ≤ 2) := by decide

/-- C4 counterexample: on a zero-row minibatch (2 devices, per-device
batch 4) the active-device-count resolution in batch_do completes normally
with the value 0 — it does not abort the step — and the failure that then
occurs is the generic ValueError of np.array_split on zero sections, not
an EmptyBatchError (no such error exists anywhere in the code). -/
theorem batch_do_zero_rows_cex :
    this_n_splits 0 4 = 0
  ∧ batch_do (α := ℚ) 2 4 (Minibatch.mk [] []) 0
      = Except.error StepError.numpy_zero_sections := by
  constructor
  · decide
  · rfl

/-- C4 (amended): a minibatch with zero rows makes the active-device-count
computation return 0, batch_do proceeds to get_feed_dict, and the step
fails there with the generic ValueError that np.array_split raises on zero
sections; no EmptyBatchError is ever raised. -/
theorem batch_do_zero_rows (num_devs batch_size : Nat) (labels : List ℚ)
    (loss_value : ℚ) :
    this_n_splits 0 batch_size = 0
  ∧ batch_do num_devs batch_size (Minibatch.mk ([] : List ℚ) labels)
        loss_value = Except.error StepError.numpy_zero_sections := by
  constructor
  · simp [this_n_splits]
  · simp [batch_do, this_n_splits, get_feed_dict, split_in_chunks,
          array_split]

/-- C7: process_gradients raises the ValueError on an empty list of
(gradient, var) pairs as soon as multiplier application empties the
gradient list, whatever the noise and clipping configuration. -/
theorem process_gradients_empty_multiplier (γ μ : Type)
    (add_scaled_noise_to_gradients : List γ → ℚ → List γ)
    (multiply_gradients : List γ → μ → List γ)
    (clip_gradients_by_norm : List γ → ℚ → List γ)
    (gradients : List γ) (gradient_noise_scale : Option ℚ) (m : μ)
    (clip_gradients : Option (ClipGradients γ))
    (h : multiply_gradients
          (match gradient_noise_scale with
           | some s => add_scaled_noise_to_gradients gradients s
           | none => gradients) m = []) :
    process_gradients add_scaled_noise_to_gradients multiply_gradients
        clip_gradients_by_norm gradients gradient_noise_scale (some m)
        clip_gradients
      = Except.error GradError.invalid_gradient_multiplier := by
  cases gradient_noise_scale <;> simp_all [process_gradients] <;> rfl

/-- C7 witness: a multiplier function that empties the gradient list makes
process_gradients fail with the invalid-multiplier error even though the
clip argument alone would have produced a different error. -/
theorem process_gradients_empty_multiplier_witness :
    process_gradients (γ := Nat) (μ := Unit) (fun g _ => g) (fun _ _ => [])
        (fun g _ => g) [5] none (some ()) (some ClipGradients.other)
      = Except.error GradError.invalid_gradient_multiplier :=
  process_gradients_empty_multiplier Nat Unit (fun g _ => g) (fun _ _ => [])
    (fun g _ => g) [5] none () (some ClipGradients.other) rfl

/-- C10: with all three optional transforms disabled (None noise scale,
None multipliers, None clipping) process_gradients returns its input
gradient list unchanged. -/
theorem process_gradients_identity (γ μ : Type)
    (add_scaled_noise_to_gradients : List γ → ℚ → List γ)
    (multiply_gradients : List γ → μ → List γ)
    (clip_gradients_by_norm : List γ → ℚ → List γ)
    (gradients : List γ) :
    process_gradients add_scaled_noise_to_gradients multiply_gradients
        clip_gradients_by_norm gradients none none none
      = Except.ok gradients := rfl

/-- C8: building the graph from a fresh Experiment state succeeds and sets
the _graph_built flag; once the flag is set, every further build attempt
(the second one and any later one) raises the cannot-build-twice error and
leaves the state unchanged. -/
theorem build_graph_twice_fails (G : Type) (mk : Unit → G)
    (st : ExperimentState G) (h : st.graph_built = false) :
    (build_graph mk st).2 = none
  ∧ (build_graph mk st).1.graph_built = true
  ∧ build_graph mk (build_graph mk st).1
      = ((build_graph mk st).1, some BuildError.cannot_build_twice)
  ∧ ∀ st' : ExperimentState G, st'.graph_built = true →
      build_graph mk st' = (st', some BuildError.cannot_build_twice) := by
  refine ⟨?_, ?_, ?_, ?_⟩
  · simp [build_graph, h]
  · simp [build_graph, h]
  · simp [build_graph, h]
  · intro st' h'
    simp [build_graph, h']

/-- C8 witness: the double-build guard exercised from the fresh state with
a Nat graph payload. -/
theorem build_graph_twice_fails_witness :
    (({ graph_built := false, graph := none } : ExperimentState Nat)).graph_built
        = false
  ∧ ((build_graph (fun _ => 7)
        ({ graph_built := false, graph := none } : ExperimentState Nat)).2
          = none
     ∧ (build_graph (fun _ => 7)
          ({ graph_built := false, graph := none } : ExperimentState Nat)).1.graph_built
            = true
     ∧ build_graph (fun _ => 7)
          (build_graph (fun _ => 7)
            ({ graph_built := false, graph := none } : ExperimentState Nat)).1
        = ((build_graph (fun _ => 7)
              ({ graph_built := false, graph := none } : ExperimentState Nat)).1,
           some BuildError.cannot_build_twice)
     ∧ ∀ st' : ExperimentState Nat, st'.graph_built = true →
          build_graph (fun _ => 7) st'
            = (st', some BuildError.cannot_build_twice)) :=
  ⟨rfl, build_graph_twice_fails Nat (fun _ => 7) _ rfl⟩

/-- C9: epoch_begin always recomputes the epoch index as the integer
division of the current global step by the number of batches per epoch;
the result does not depend on the previously stored epoch index (any two
states agreeing on global step and nbatches get the same epoch index),
and epoch_begin does not touch the persisted counters themselves. -/
theorem epoch_begin_recomputes_epoch (st : TrainLoopState) :
    (epoch_begin st).epoch_id = st.global_step_val / st.nbatches
  ∧ (∀ st2 : TrainLoopState, st2.global_step_val = st.global_step_val →
      st2.nbatches = st.nbatches →
      (epoch_begin st2).epoch_id = (epoch_begin st).epoch_id)
  ∧ (epoch_begin st).global_step_val = st.global_step_val
  ∧ (epoch_begin st).nbatches = st.nbatches := by
  refine ⟨rfl, ?_, rfl, rfl⟩
  intro st2 h1 h2
  simp [epoch_begin, h1, h2]

/-- Folding a list of emissions into the collections appends, to each
collection named in keys, exactly that emission list (in order). -/
theorem foldl_add_to_collections [DecidableEq κ] (its : List α)
    (keys : List κ) (cols : κ → List α) (k : κ) :
    (its.foldl (fun c it => add_to_collections keys it c) cols) k
      = cols k ++ (if k ∈ keys then its else []) := by
  induction its generalizing cols with
  | nil => simp
  | cons it its ih =>
      simp only [List.foldl_cons, ih, add_to_collections]
      by_cases hk : k ∈ keys <;> simp [hk]

/-- The device loop appends bucketOf to whatever each collection already
holds. -/
theorem device_loop_eq_bucketOf (emits : Nat → List α) (ds : List Nat)
    (cols : Nat → List α) (k : Nat) :
    device_loop emits ds cols k = cols k ++ bucketOf emits ds k := by
  induction ds generalizing cols with
  | nil => simp [device_loop, bucketOf]
  | cons d rest ih =>
      simp only [device_loop, bucketOf, ih, foldl_add_to_collections,
                 List.append_assoc]

/-- Along a contiguous device range whose upper end B exceeds k, the
collection k receives the emissions of exactly the devices with ordinal at
most k, in ordinal order. -/
theorem bucketOf_range' (emits : Nat → List α) (k B : Nat) (hkB : k < B) :
    ∀ n t, t + n = B →
      bucketOf emits (List.range' t n) k
        = (((List.range' t n).filter (fun d => decide (d ≤ k))).map
            emits).flatten := by
  intro n
  induction n with
  | zero =>
      intro t ht
      simp [List.range', bucketOf]
  | succ n ih =>
      intro t ht
      have ht' : (t + 1) + n = B := by omega
      rw [List.range'_succ t n 1]
      by_cases htk : t ≤ k
      · have hkmem : k ∈ t :: List.range' (t + 1) n := by
          rcases Nat.eq_or_lt_of_le htk with h | h
          · exact h ▸ List.mem_cons_self _ _
          · exact List.mem_cons_of_mem _ (List.mem_range'_1.mpr (by omega))
        simp [bucketOf, ih (t + 1) ht', hkmem, List.filter_cons, htk]
      · have hkmem : ¬ k ∈ t :: List.range' (t + 1) n := by
          intro hmem
          rcases List.mem_cons.1 hmem with h | h
          · omega
          · rw [List.mem_range'_1] at h
            omega
        simp [bucketOf, ih (t + 1) ht', hkmem, List.filter_cons, htk]

/-- Keeping the ordinals at most i from range D (with i < D) keeps exactly
range (i + 1). -/
theorem filter_range_le (D i : Nat) (hi : i < D) :
    (List.range D).filter (fun d => decide (d ≤ i)) = List.range (i + 1) := by
  induction D with
  | zero => omega
  | succ D ih =>
      rcases Nat.lt_or_ge i D with h | h
      · rw [List.range_succ, List.filter_append, ih h]
        have hDi : ¬ D ≤ i := by omega
        simp [hDi]
      · have hiD : i = D := by omega
        subst hiD
        apply List.filter_eq_self.mpr
        intro a ha
        simp only [List.mem_range] at ha
        simp
        omega

/-- The i-th summary collection at merge time holds the emissions of
devices 0..i in ordinal order, followed by the post-loop aggregate
summaries (which every collection receives). -/
theorem summaryBucket_eq_flatten (D : Nat) (emits : Nat → List α)
    (post : List α) (i : Nat) (hi : i < D) :
    summaryBucket D emits post i
      = ((List.range (i + 1)).map emits).flatten ++ post := by
  unfold summaryBucket build_summary_collections
  rw [foldl_add_to_collections, if_pos (List.mem_range.mpr hi),
      device_loop_eq_bucketOf, List.range_eq_range' D,
      bucketOf_range' emits i D hi D 0 (by omega),
      ← List.range_eq_range' D, filter_range_le D i hi]
  simp

/-- C3 counterexample: two devices, each emitting its own ordinal while
its replica is built, and one post-loop aggregate summary (tag 99) that
the source adds to every collection (the batch-size / avg-loss scalars of
main.py lines 654-704): bucket 0 is [0, 99], not the set of summaries
emitted while building replica 0 alone (the equation with the empty
bucket before ordinal 0 fails), and the merged op for device 0 covers the
aggregate entry 99, which no device emitted — so the exact-coverage part
of the claim is false as well. -/
theorem summary_bucket_cumulative_cex :
    summaryBucket 2 (fun d => [d]) [99] 0 = [0, 99]
  ∧ ¬ (summaryBucket 2 (fun d => [d]) [99] 0 = [0])
  ∧ ¬ (∀ x, x ∈ summaryBucket 2 (fun d => [d]) [99] 0
        ↔ ∃ d, d ≤ 0 ∧ x ∈ [d]) := by
  refine ⟨by decide, by decide, ?_⟩
  intro h
  obtain ⟨d, hd, hmem⟩ := (h 99).mp (by decide)
  have hd0 : d = 0 := by omega
  subst hd0
  simp at hmem

/-- C3 (amended): for every device ordinal i in range, SummaryBucket i as
built during graph construction is the concatenation of the summaries
emitted while building replicas 0..i (in ordinal order) with the
whole-graph aggregate summaries that the source adds to every collection
after the device loop; hence bucket i arises from bucket (i-1) by
inserting replica i's emissions before the shared aggregate tail (the
device part before ordinal 0 being empty), every bucket contains every
entry of the previous bucket, and the i-th merged summary op covers
exactly the summaries of devices 0..i together with the shared
aggregates. -/
theorem summary_bucket_cumulative (α : Type) (D : Nat)
    (emits : Nat → List α) (post : List α) (i : Nat) (hi : i < D) :
    summaryBucket D emits post i
        = ((List.range (i + 1)).map emits).flatten ++ post
  ∧ summaryBucket D emits post i
        = (if i = 0 then [] else ((List.range i).map emits).flatten)
          ++ emits i ++ post
  ∧ (0 < i → summaryBucket D emits post (i - 1)
        = ((List.range i).map emits).flatten ++ post)
  ∧ (0 < i → ∀ x, x ∈ summaryBucket D emits post (i - 1) →
        x ∈ summaryBucket D emits post i)
  ∧ ∀ x, x ∈ summaryBucket D emits post i
        ↔ (∃ d, d ≤ i ∧ x ∈ emits d) ∨ x ∈ post := by
  have h1 := summaryBucket_eq_flatten D emits post i hi
  have h2 : ((List.range (i + 1)).map emits).flatten
      = (if i = 0 then [] else ((List.range i).map emits).flatten)
        ++ emits i := by
    rcases Nat.eq_zero_or_pos i with h0 | h0
    · subst h0
      rw [List.range_succ]
      simp
    · rw [if_neg (by omega), List.range_succ]
      simp
  have h3 : 0 < i → summaryBucket D emits post (i - 1)
      = ((List.range i).map emits).flatten ++ post := by
    intro h0
    have hp := summaryBucket_eq_flatten D emits post (i - 1) (by omega)
    rwa [show i - 1 + 1 = i by omega] at hp
  have hmem : ∀ j, j < D → ∀ x, x ∈ summaryBucket D emits post j
      ↔ (∃ d, d ≤ j ∧ x ∈ emits d) ∨ x ∈ post := by
    intro j hj x
    rw [summaryBucket_eq_flatten D emits post j hj]
    simp only [List.mem_append, List.mem_flatten, List.mem_map,
               List.mem_range]
    constructor
    · rintro (⟨l, ⟨d, hd, rfl⟩, hx⟩ | hx)
      · exact Or.inl ⟨d, by omega, hx⟩
      · exact Or.inr hx
    · rintro (⟨d, hd, hx⟩ | hx)
      · exact Or.inl ⟨emits d, ⟨d, by omega, rfl⟩, hx⟩
      · exact Or.inr hx
  refine ⟨h1, by rw [h1, h2, List.append_assoc], h3, ?_, hmem i hi⟩
  intro h0 x hx
  rw [hmem (i - 1) (by omega)] at hx
  rw [hmem i hi]
  rcases hx with ⟨d, hd, hx⟩ | hx
  · exact Or.inl ⟨d, by omega, hx⟩
  · exact Or.inr hx

/-- C3 witness: two devices emitting their own ordinal plus one shared
post-loop aggregate (tag 99); bucket 1 is bucket 0 with device 1's
emission inserted before the aggregate tail, contains every entry of
bucket 0, and covers exactly devices 0..1 plus the aggregate. -/
theorem summary_bucket_cumulative_witness :
    (1 : Nat) < 2
  ∧ (summaryBucket 2 (fun d => [d]) [99] 1
        = ((List.range (1 + 1)).map (fun d => [d])).flatten ++ [99]
     ∧ summaryBucket 2 (fun d => [d]) [99] 1
        = (if (1 : Nat) = 0 then []
           else ((List.range 1).map (fun d => [d])).flatten) ++ [1] ++ [99]
     ∧ ((0 : Nat) < 1 → summaryBucket 2 (fun d => [d]) [99] 0
          = ((List.range 1).map (fun d => [d])).flatten ++ [99])
     ∧ ((0 : Nat) < 1 → ∀ x, x ∈ summaryBucket 2 (fun d => [d]) [99] 0 →
          x ∈ summaryBucket 2 (fun d => [d]) [99] 1)
     ∧ ∀ x, x ∈ summaryBucket 2 (fun d => [d]) [99] 1
          ↔ (∃ d, d ≤ 1 ∧ x ∈ [d]) ∨ x ∈ [99]) :=
  ⟨by decide,
   summary_bucket_cumulative Nat 2 (fun d => [d]) [99] 1 (by decide)⟩

/-- splitBySizes yields one piece per requested size. -/
theorem splitBySizes_length (xs : List α) (ss : List Nat) :
    (splitBySizes xs ss).length = ss.length := by
  induction ss generalizing xs with
  | nil => simp [splitBySizes]
  | cons s ss ih => simp [splitBySizes, ih]

/-- np.array_split with a nonzero section count succeeds and yields
exactly that many sections. -/
theorem array_split_some (xs : List α) (n : Nat) (hn : n ≠ 0) :
    array_split xs n
        = some (splitBySizes xs (arraySplitSizes xs.length n))
    ∧ (splitBySizes xs (arraySplitSizes xs.length n)).length = n := by
  refine ⟨by simp [array_split, hn], ?_⟩
  rw [splitBySizes_length]
  simp [arraySplitSizes]

/-- Splitting a minibatch into a nonzero number of chunks yields exactly
that many chunks. -/
theorem chunksOf_length (mini : Minibatch α) (n : Nat) (hn : n ≠ 0) :
    (chunksOf mini n).length = n := by
  unfold chunksOf split_in_chunks
  rw [(array_split_some mini.data n hn).1,
      (array_split_some mini.labels n hn).1]
  simp [(array_split_some mini.data n hn).2,
        (array_split_some mini.labels n hn).2]

/-- Padding a list with D - length copies of a fill value realizes the
function sending each position below D to the list entry there and every
later position to the fill value. -/
theorem append_replicate_eq_map_getD (c0 : γ) (cs : List γ) :
    ∀ D, cs.length ≤ D →
      cs ++ List.replicate (D - cs.length) c0
        = (List.range D).map (fun d => cs.getD d c0) := by
  induction cs with
  | nil =>
      intro D hD
      simp only [List.nil_append, List.length_nil, Nat.sub_zero]
      rw [show (fun d => List.getD [] d c0) = fun _ => c0 from
            funext (fun d => by simp [List.getD]),
          List.map_const']
      simp
  | cons c cs ih =>
      intro D hD
      cases D with
      | zero => simp at hD
      | succ D =>
          have hD' : cs.length ≤ D := by
            simp only [List.length_cons] at hD
            omega
          have hsub : D + 1 - (c :: cs).length = D - cs.length := by
            simp only [List.length_cons]
            omega
          rw [hsub, List.range_succ_eq_map, List.map_cons, List.map_map,
              List.cons_append]
          congr 1
          rw [ih D hD']
          apply List.map_congr_left
          intro d _
          simp [Function.comp]

/-- Zipping range D with a function of the index pairs each index with its
value. -/
theorem range_zip_map (D : Nat) (f : Nat → γ) :
    (List.range D).zip ((List.range D).map f)
      = (List.range D).map (fun d => (d, f d)) := by
  have h := List.zip_map' (fun d => d) f (List.range D)
  simpa using h

/-- Closed form of get_feed_dict when the split count k is between 1 and
the device count: every device d is fed, device d receiving the chunk at
position d, defaulting to the first chunk beyond the chunk list. -/
theorem get_feed_dict_eq (α : Type) (D k : Nat) (mini : Minibatch α)
    (lv : ℚ) (hk1 : 1 ≤ k) (hkD : k ≤ D) (c0 : Minibatch α)
    (hc0 : (chunksOf mini k).head? = some c0) :
    get_feed_dict D mini lv k = some (
      (((List.range D).map (fun d =>
          [(Placeholder.data d,
            FeedVal.arr (((chunksOf mini k).getD d c0).data)),
           (Placeholder.labels d,
            FeedVal.arr (((chunksOf mini k).getD d c0).labels))])).flatten)
      ++ [(Placeholder.num_devs, FeedVal.cnt k),
          (Placeholder.num_batches, FeedVal.cnt mini.data.length),
          (Placeholder.prev_err, FeedVal.err lv)]) := by
  have hk0 : k ≠ 0 := by omega
  have hlen : (chunksOf mini k).length = k := chunksOf_length mini k hk0
  have hext : chunksOf mini k
        ++ List.replicate (D - (chunksOf mini k).length) c0
      = (List.range D).map (fun d => (chunksOf mini k).getD d c0) :=
    append_replicate_eq_map_getD c0 (chunksOf mini k) D (by omega)
  have hsplit : split_in_chunks mini.data mini.labels k
      = some (splitBySizes mini.data (arraySplitSizes mini.data.length k),
              splitBySizes mini.labels
                (arraySplitSizes mini.labels.length k)) := by
    unfold split_in_chunks
    rw [(array_split_some mini.data k hk0).1,
        (array_split_some mini.labels k hk0).1]
    rfl
  unfold get_feed_dict
  rw [hsplit]
  simp only [Option.bind_eq_bind, Option.some_bind]
  rw [hc0]
  simp only [Option.bind_eq_bind, Option.some_bind]
  unfold zip_longest_fill
  rw [List.length_range, hext, range_zip_map, List.map_map]
  rfl

/-- C6: when a step's active device count k is at most the configured
device count D, batch_do builds a feed that assigns every one of the D
devices' placeholders a value — device d getting chunk d of the split
minibatch, and every device at or beyond k getting the first chunk — and
selects the op of index k - 1, whose merged summary collection contains,
besides the aggregate summaries shared by every bucket, exactly the
summaries of devices 0..k-1: no summary emitted while building a device
at or beyond k is ever selected into it. -/
theorem feed_replicates_first_chunk_beyond_active (α : Type)
    (D b k : Nat) (mini : Minibatch α) (lv : ℚ)
    (hk : this_n_splits mini.data.length b = k)
    (hk1 : 1 ≤ k) (hkD : k ≤ D) :
    (∃ c0, (chunksOf mini k).head? = some c0
      ∧ batch_do D b mini lv = Except.ok
          ((((List.range D).map (fun d =>
              [(Placeholder.data d,
                FeedVal.arr (((chunksOf mini k).getD d c0).data)),
               (Placeholder.labels d,
                FeedVal.arr (((chunksOf mini k).getD d c0).labels))])).flatten)
            ++ [(Placeholder.num_devs, FeedVal.cnt k),
                (Placeholder.num_batches, FeedVal.cnt mini.data.length),
                (Placeholder.prev_err, FeedVal.err lv)], k - 1)
      ∧ ∀ d, k ≤ d → (chunksOf mini k).getD d c0 = c0)
  ∧ ∀ (emits : Nat → List Nat) (post : List Nat) (x : Nat),
      x ∈ summaryBucket D emits post (k - 1)
        ↔ (∃ d, d < k ∧ x ∈ emits d) ∨ x ∈ post := by
  have hk0 : k ≠ 0 := by omega
  have hlen := chunksOf_length mini k hk0
  obtain ⟨c0, hc0⟩ : ∃ c0, (chunksOf mini k).head? = some c0 := by
    cases hh : (chunksOf mini k).head? with
    | none =>
        rw [List.head?_eq_none_iff.mp hh] at hlen
        simp at hlen
        omega
    | some c => exact ⟨c, rfl⟩
  constructor
  · refine ⟨c0, hc0, ?_, ?_⟩
    · unfold batch_do
      rw [hk, get_feed_dict_eq α D k mini lv hk1 hkD c0 hc0]
      simp [show k - 1 < D by omega]
    · intro d hd
      apply List.getD_eq_default
      omega
  · intro emits post x
    rw [summaryBucket_eq_flatten D emits post (k - 1) (by omega)]
    simp only [List.mem_append, List.mem_flatten, List.mem_map,
               List.mem_range]
    constructor
    · rintro (⟨l, ⟨d, hd, rfl⟩, hx⟩ | hx)
      · exact Or.inl ⟨d, by omega, hx⟩
      · exact Or.inr hx
    · rintro (⟨d, hd, hx⟩ | hx)
      · exact Or.inl ⟨emits d, ⟨d, by omega, rfl⟩, hx⟩
      · exact Or.inr hx

/-- C6 witness: 2 rows of batch size 1 on 3 configured devices: the active
count is 2, device 2 receives the first chunk again, and op 1 is
selected. -/
theorem feed_replicates_first_chunk_beyond_active_witness :
    (∃ c0, (chunksOf (Minibatch.mk ([10, 20] : List ℕ) [5, 6]) 2).head?
          = some c0
      ∧ batch_do 3 1 (Minibatch.mk ([10, 20] : List ℕ) [5, 6]) 0 = Except.ok
          ((((List.range 3).map (fun d =>
              [(Placeholder.data d,
                FeedVal.arr (((chunksOf
                  (Minibatch.mk ([10, 20] : List ℕ) [5, 6]) 2).getD d
                    c0).data)),
               (Placeholder.labels d,
                FeedVal.arr (((chunksOf
                  (Minibatch.mk ([10, 20] : List ℕ) [5, 6]) 2).getD d
                    c0).labels))])).flatten)
            ++ [(Placeholder.num_devs, FeedVal.cnt 2),
                (Placeholder.num_batches, FeedVal.cnt 2),
                (Placeholder.prev_err, FeedVal.err 0)], 2 - 1)
      ∧ ∀ d, 2 ≤ d →
          (chunksOf (Minibatch.mk ([10, 20] : List ℕ) [5, 6]) 2).getD d c0
            = c0)
  ∧ ∀ (emits : Nat → List Nat) (post : List Nat) (x : Nat),
      x ∈ summaryBucket 3 emits post (2 - 1)
        ↔ (∃ d, d < 2 ∧ x ∈ emits d) ∨ x ∈ post :=
  feed_replicates_first_chunk_beyond_active ℕ 3 1 2
    (Minibatch.mk [10, 20] [5, 6]) 0 (by decide) (by decide) (by decide)

/-- Folding min over lengths that all equal m, starting from m, stays
at m. -/
theorem foldl_min_length (m : Nat) (ls : List (List β))
    (h : ∀ x ∈ ls, x.length = m) :
    ls.foldl (fun a b => min a b.length) m = m := by
  induction ls with
  | nil => rfl
  | cons l ls ih =>
      have hl : l.length = m := h l (List.mem_cons_self l ls)
      simp only [List.foldl_cons, hl, min_self]
      exact ih (fun x hx => h x (List.mem_cons_of_mem _ hx))

/-- The zip length of a nonempty family of equal-length lists. -/
theorem minLen_eq (m : Nat) (l : List β) (ls : List (List β))
    (hl : l.length = m) (h : ∀ x ∈ ls, x.length = m) :
    minLen (l :: ls) = m := by
  show ls.foldl (fun a b => min a b.length) l.length = m
  rw [hl]
  exact foldl_min_length m ls h

/-- filterMap of an everywhere-some function is the map of its values. -/
theorem filterMap_eq_map_of_some (l : List β) (f : β → Option γ)
    (g : β → γ) (h : ∀ x ∈ l, f x = some (g x)) :
    l.filterMap f = l.map g := by
  induction l with
  | nil => rfl
  | cons a l ih =>
      rw [List.filterMap_cons, h a (List.mem_cons_self a l), List.map_cons,
          ih (fun x hx => h x (List.mem_cons_of_mem _ hx))]

/-- Option-valued mapM of an everywhere-succeeding function collects the
values. -/
theorem mapM_eq_some_of_forall (l : List β) (f : β → Option γ)
    (g : β → γ) (h : ∀ x ∈ l, f x = some (g x)) :
    l.mapM f = some (l.map g) := by
  induction l with
  | nil => rfl
  | cons a l ih =>
      rw [List.mapM_cons, h a (List.mem_cons_self a l),
          ih (fun x hx => h x (List.mem_cons_of_mem _ hx))]
      rfl

/-- Option-valued mapM fails when any element fails. -/
theorem mapM_eq_none_of_exists (l : List β) (f : β → Option γ)
    (h : ∃ x ∈ l, f x = none) :
    l.mapM f = none := by
  induction l with
  | nil => simp at h
  | cons a l ih =>
      rw [List.mapM_cons]
      rcases h with ⟨x, hx, hfx⟩
      rcases List.mem_cons.1 hx with rfl | hx'
      · rw [hfx]
        rfl
      · cases hfa : f a with
        | none => rfl
        | some b =>
            rw [ih ⟨x, hx', hfx⟩]
            rfl

/-- Python zip over a nonempty rectangular family of rows is the
transpose. -/
theorem zipStar_rect (k m : Nat) (row : Nat → Nat → β) :
    zipStar ((List.range (k + 1)).map (fun t => (List.range m).map (row t)))
      = (List.range m).map (fun j =>
          (List.range (k + 1)).map (fun t => row t j)) := by
  have hml : minLen ((List.range (k + 1)).map (fun t =>
      (List.range m).map (row t))) = m := by
    rw [List.range_succ_eq_map k, List.map_cons]
    apply minLen_eq
    · simp
    · intro x hx
      simp only [List.map_map, List.mem_map] at hx
      obtain ⟨t, _, rfl⟩ := hx
      simp
  unfold zipStar
  rw [hml]
  apply List.map_congr_left
  intro i hi
  rw [List.mem_range] at hi
  rw [List.filterMap_map]
  apply filterMap_eq_map_of_some
  intro t _
  simp [List.getElem?_range, hi]

/-- Stacking a nonempty rectangular family of equal-length gradients and
taking the mean over the stacking axis gives the elementwise mean. -/
theorem reduce_mean_rect (k n : Nat) (e : Nat → Nat → ℚ) :
    reduce_mean_axis0 ((List.range (k + 1)).map (fun t =>
        (List.range n).map (e t)))
      = (List.range n).map (fun i =>
          ((List.range (k + 1)).map (fun t => e t i)).sum
            / ((k + 1 : Nat) : ℚ)) := by
  have hcons : (List.range (k + 1)).map (fun t => (List.range n).map (e t))
      = ((List.range n).map (e 0))
        :: ((List.range k).map (fun t => (List.range n).map (e (t + 1)))) := by
    rw [List.range_succ_eq_map, List.map_cons, List.map_map]
    rfl
  rw [hcons]
  unfold reduce_mean_axis0
  simp only [List.length_map, List.length_range, List.length_cons]
  apply List.map_congr_left
  intro i hi
  rw [List.mem_range] at hi
  have hhead : ((List.range n).map (e 0)).getD i 0 = e 0 i := by
    rw [List.getD_eq_getElem?_getD, List.getElem?_map]
    simp [List.getElem?_range, hi]
  have htail : ((List.range k).map (fun t => (List.range n).map (e (t + 1)))).map
        (fun u => u.getD i 0)
      = (List.range k).map (fun t => e (t + 1) i) := by
    rw [List.map_map]
    apply List.map_congr_left
    intro t _
    simp only [Function.comp]
    rw [List.getD_eq_getElem?_getD, List.getElem?_map]
    simp [List.getElem?_range, hi]
  have hsum : ((List.range (k + 1)).map (fun t => e t i))
      = e 0 i :: (List.range k).map (fun t => e (t + 1) i) := by
    rw [List.range_succ_eq_map, List.map_cons, List.map_map]
    rfl
  rw [List.map_cons, hhead, htail, hsum]

/-- Reindexing a sum over range k by a permutation of the naturals that
preserves range k leaves the sum unchanged. -/
theorem sum_range_comp_perm (k : Nat) (f : Nat → ℚ) (σ : Equiv.Perm ℕ)
    (hσ : ∀ t, t < k → σ t < k) :
    ((List.range k).map (fun t => f (σ t))).sum
      = ((List.range k).map f).sum := by
  have hsum1 : ((List.range k).map (fun t => f (σ t))).sum
      = ∑ i in Finset.range k, f (σ i) := rfl
  have hsum2 : ((List.range k).map f).sum = ∑ i in Finset.range k, f i := rfl
  rw [hsum1, hsum2]
  have himg : (Finset.range k).image σ = Finset.range k := by
    apply Finset.eq_of_subset_of_card_le
    · intro x hx
      simp only [Finset.mem_image, Finset.mem_range] at hx ⊢
      obtain ⟨b, hb, rfl⟩ := hx
      exact hσ b hb
    · rw [Finset.card_image_of_injective _ σ.injective]
  have hiff : ∀ i, i ∈ Finset.range k ↔ σ i ∈ Finset.range k := by
    intro i
    constructor
    · intro hi
      simpa using hσ i (by simpa using hi)
    · intro hi
      rw [← himg] at hi
      simp only [Finset.mem_image] at hi
      obtain ⟨b, hb, hbe⟩ := hi
      rwa [← σ.injective hbe]
  exact Finset.sum_equiv σ hiff (fun i _ => rfl)

/-- Closed form of average_gradients on a nonempty rectangular tower
family with all gradients present: per variable, the elementwise mean of
the towers' gradients paired with tower 0's variable handle. -/
theorem average_gradients_rect (V : Type) [Inhabited V] (k m n : Nat)
    (g : Nat → Nat → Nat → ℚ) (v : Nat → Nat → V) :
    average_gradients ((List.range (k + 1)).map (fun t =>
        (List.range m).map (fun j =>
          (some ((List.range n).map (g t j)), v t j))))
      = some ((List.range m).map (fun j =>
          ((List.range n).map (fun i =>
             ((List.range (k + 1)).map (fun t => g t j i)).sum
               / ((k + 1 : Nat) : ℚ)),
           v 0 j))) := by
  have hF : ∀ x ∈ (List.range m).map (fun j =>
      (List.range (k + 1)).map (fun t =>
        (some ((List.range n).map (g t j)), v t j))),
      (fun grad_and_vars => do
        let grads ← grad_and_vars.mapM (fun gv => gv.1)
        let grad := reduce_mean_axis0 grads
        let vv := match grad_and_vars with
          | [] => default
          | gv0 :: _ => gv0.2
        some (grad, vv)) x
      = some ((fun grad_and_vars =>
          (reduce_mean_axis0 (grad_and_vars.map (fun gv => gv.1.getD [])),
           match grad_and_vars with
           | [] => (default : V)
           | gv0 :: _ => gv0.2)) x) := by
    intro x hx
    simp only [List.mem_map] at hx
    obtain ⟨j, _, rfl⟩ := hx
    have hin : ∀ gv ∈ (List.range (k + 1)).map (fun t =>
        (some ((List.range n).map (g t j)), v t j)),
        gv.1 = some (gv.1.getD []) := by
      intro gv hgv
      simp only [List.mem_map] at hgv
      obtain ⟨t, _, rfl⟩ := hgv
      rfl
    beta_reduce
    rw [mapM_eq_some_of_forall
          ((List.range (k + 1)).map (fun t =>
            (some ((List.range n).map (g t j)), v t j)))
          (fun gv : Option (List ℚ) × V => gv.1)
          (fun gv : Option (List ℚ) × V => gv.1.getD []) hin]
    rfl
  unfold average_gradients
  rw [zipStar_rect k m
        (fun t j => (some ((List.range n).map (g t j)), v t j)),
      mapM_eq_some_of_forall _ _ _ hF]
  apply congrArg some
  rw [List.map_map]
  apply List.map_congr_left
  intro j _
  simp only [Function.comp, Prod.mk.injEq]
  refine ⟨?_, ?_⟩
  · rw [List.map_map]
    have hcomp : ((fun gv => (Prod.fst gv).getD ([] : List ℚ)) ∘ fun t =>
        (some ((List.range n).map (g t j)), v t j))
        = fun t => (List.range n).map (g t j) := rfl
    rw [hcomp, reduce_mean_rect k n (fun t => g t j)]
  · rw [List.range_succ_eq_map, List.map_cons]

/-- C2: average_gradients over k towers (k positive) returns, for every
variable index, exactly the elementwise arithmetic mean of the k per-tower
gradients (their sum divided by k) paired with the variable handle of
tower 0; and when the towers all carry the shared variable handle,
permuting the tower order while keeping the per-tower variable indexing
aligned leaves the result unchanged. -/
theorem average_gradients_elementwise_mean (V : Type) [Inhabited V]
    (k m n : Nat) (hk : 0 < k)
    (g : Nat → Nat → Nat → ℚ) (v : Nat → Nat → V) :
    (average_gradients ((List.range k).map (fun t =>
        (List.range m).map (fun j =>
          (some ((List.range n).map (g t j)), v t j))))
      = some ((List.range m).map (fun j =>
          ((List.range n).map (fun i =>
             ((List.range k).map (fun t => g t j i)).sum / ((k : Nat) : ℚ)),
           v 0 j))))
  ∧ ∀ σ : Equiv.Perm ℕ, (∀ t, t < k → σ t < k) →
      (∀ t j, v t j = v 0 j) →
      average_gradients ((List.range k).map (fun t =>
        (List.range m).map (fun j =>
          (some ((List.range n).map (g (σ t) j)), v (σ t) j))))
      = average_gradients ((List.range k).map (fun t =>
        (List.range m).map (fun j =>
          (some ((List.range n).map (g t j)), v t j)))) := by
  obtain ⟨k', rfl⟩ : ∃ k', k = k' + 1 := ⟨k - 1, by omega⟩
  constructor
  · exact average_gradients_rect V k' m n g v
  · intro σ hσ hv
    rw [average_gradients_rect V k' m n (fun t => g (σ t))
          (fun t => v (σ t)),
        average_gradients_rect V k' m n g v]
    apply congrArg some
    apply List.map_congr_left
    intro j _
    simp only [Prod.mk.injEq]
    refine ⟨?_, hv (σ 0) j⟩
    apply List.map_congr_left
    intro i _
    rw [sum_range_comp_perm (k' + 1) (fun t => g t j i) σ hσ]

/-- C2 witness: two towers of one scalar-like gradient each (the tower
index as the value), sharing variable handle 0. -/
theorem average_gradients_elementwise_mean_witness :
    (0 : Nat) < 2
  ∧ (average_gradients ((List.range 2).map (fun t =>
        (List.range 1).map (fun _ =>
          (some ((List.range 1).map (fun _ => (t : ℚ))), (0 : ℕ)))))
      = some ((List.range 1).map (fun _ =>
          ((List.range 1).map (fun _ =>
             ((List.range 2).map (fun t => (t : ℚ))).sum / ((2 : Nat) : ℚ)),
           (0 : ℕ)))))
  ∧ ∀ σ : Equiv.Perm ℕ, (∀ t, t < 2 → σ t < 2) →
      (∀ _ _ : ℕ, (0 : ℕ) = 0) →
      average_gradients ((List.range 2).map (fun t =>
        (List.range 1).map (fun _ =>
          (some ((List.range 1).map (fun _ => (σ t : ℚ))), (0 : ℕ)))))
      = average_gradients ((List.range 2).map (fun t =>
        (List.range 1).map (fun _ =>
          (some ((List.range 1).map (fun _ => (t : ℚ))), (0 : ℕ))))) :=
  ⟨by decide, average_gradients_elementwise_mean ℕ 2 1 1 (by decide)
    (fun t _ _ => (t : ℚ)) (fun _ _ => 0)⟩

/-- C5 (amended): utils.average_gradients performs no None handling: as
soon as any tower contributes a None gradient for any variable position
inside the zip-aligned prefix, the whole call fails (the model of the
error tf.expand_dims raises on a None gradient); a None gradient is
neither skipped nor propagated nor numerically averaged. -/
theorem average_gradients_none_fails (V : Type) [Inhabited V]
    (tower_grads : List (List (Option (List ℚ) × V)))
    (h : ∃ row ∈ zipStar tower_grads, ∃ gv ∈ row, gv.1 = none) :
    average_gradients tower_grads = none := by
  obtain ⟨row, hrow, hgv⟩ := h
  unfold average_gradients
  apply mapM_eq_none_of_exists
  refine ⟨row, hrow, ?_⟩
  beta_reduce
  rw [mapM_eq_none_of_exists row
        (fun gv : Option (List ℚ) × V => gv.1) hgv]
  rfl

/-- C5 counterexample: tower 0 contributes None for the second variable;
the call fails — returning the model of the ValueError that
tf.expand_dims raises on None — instead of skipping or propagating the
None, refuting the claim that the call does not fail. -/
theorem average_gradients_none_cex :
    average_gradients (V := ℕ)
        [[(some [1], 0), (none, 1)], [(some [2], 0), (some [3], 1)]]
      = none := by rfl

/-- C5 witness: the failure theorem applied to a two-tower input whose
first tower has a None gradient for variable index 1. -/
theorem average_gradients_none_fails_witness :
    (∃ row ∈ zipStar
        ([[(some [1], 0), (none, 1)], [(some [2], 0), (some [3], 1)]] :
          List (List (Option (List ℚ) × ℕ))),
      ∃ gv ∈ row, gv.1 = none)
  ∧ average_gradients (V := ℕ)
        [[(some [1], 0), (none, 1)], [(some [2], 0), (some [3], 1)]]
      = none :=
  ⟨by decide,
   average_gradients_none_fails ℕ
     [[(some [1], 0), (none, 1)], [(some [2], 0), (some [3], 1)]]
     (by decide)⟩

/-- C9 witness: the epoch recomputation at global step 7 with 3 batches
per epoch, whatever epoch index was previously stored. -/
theorem epoch_begin_recomputes_epoch_witness :
    (epoch_begin ⟨7, 3, 99⟩).epoch_id = 7 / 3
  ∧ (∀ st2 : TrainLoopState, st2.global_step_val = 7 →
      st2.nbatches = 3 →
      (epoch_begin st2).epoch_id = (epoch_begin ⟨7, 3, 99⟩).epoch_id)
  ∧ (epoch_begin ⟨7, 3, 99⟩).global_step_val = 7
  ∧ (epoch_begin ⟨7, 3, 99⟩).nbatches = 3 :=
  epoch_begin_recomputes_epoch ⟨7, 3, 99⟩

end MainLoopTF
